import Mathlib

set_option maxHeartbeats 1000000

/-!
Verification of the acquisition-and-decoding core of the iot-toolbox
repository: the register display codec (`src/modbus/display.rs` and
`src/modbus/app.rs`), the register table construction (`src/modbus/app.rs`,
`ui_table`), the Modbus response mapping (`modbus_read_by_function`), the
auto-poll loop and one-shot read (`start_auto_poll`, `start_read_once`),
the serial frame-assembly thread (`src/serial/app.rs`,
`start_read_thread`), and the hex string utilities
(`src/serial/utils.rs`).

Machine integers are modelled as `Nat` carrying the obvious range
invariant of their Rust type (`u8` values are below 256, `u16` values
below 65536); twos-complement reinterpretation is made explicit.
The IEEE-754 rendering calls `f32::from_bits(bits).to_string()` and
`f64::from_bits(bits).to_string()` are pure functions of the assembled
bit pattern; they are modelled as explicit function parameters
`f32show f64show : Nat → String`, so every theorem below about the float
branches holds for the actual rendering function among all others.
-/

/-- Reinterpret a 16-bit register value as a twos-complement signed 16-bit
integer, the meaning of `v as i16` on a `u16` value in the source. -/
def toI16 (v : Nat) : Int :=
  if v < 32768 then (v : Int) else (v : Int) - 65536

/-- Reinterpret a 32-bit pattern as a twos-complement signed 32-bit integer,
the meaning of `v as i32` on a `u32` value in the source. -/
def toI32 (v : Nat) : Int :=
  if v < 2147483648 then (v : Int) else (v : Int) - 4294967296

/-- Upper-case hexadecimal digit character for `d < 16`, as produced by the
`X` formatting conversion in Rust. -/
def hexCharUpper (d : Nat) : Char :=
  if d < 10 then Char.ofNat (48 + d) else Char.ofNat (55 + d)

/-- The four upper-case hex digits of a `u16` value: image of
`format!("{:04X}", v)` on the `u16` domain (`v < 65536`), where the width 4
is always exact. -/
def hex4 (v : Nat) : List Char :=
  [hexCharUpper (v / 4096 % 16), hexCharUpper (v / 256 % 16),
   hexCharUpper (v / 16 % 16), hexCharUpper (v % 16)]

/-- The 16 binary digits of a `u16` value, most significant first: image of
`format!("{:016b}", v)` on the `u16` domain (`v < 65536`), where the width
16 is always exact. -/
def bin16 (v : Nat) : List Char :=
  (List.range 16).map (fun i => if v.testBit (15 - i) then '1' else '0')

/-- `DisplayFormat` from `src/modbus/display.rs` lines 1-13. The same
enumeration is declared a second time, variant for variant, in
`src/modbus/app.rs` lines 22-34; both Rust declarations are embedded by
this single type. -/
inductive DisplayFormat where
  | Signed
  | Unsigned
  | Hex
  | Binary
  | Long
  | LongInverse
  | Float
  | FloatInverse
  | Double
  | DoubleInverse
deriving DecidableEq

/-- `DisplayFormat::register_count` from `src/modbus/display.rs` lines
44-58: the number of 16-bit words each format consumes. -/
def DisplayFormat.register_count : DisplayFormat → Nat
  | .Signed | .Unsigned | .Hex | .Binary => 1
  | .Long | .LongInverse | .Float | .FloatInverse => 2
  | .Double | .DoubleInverse => 4

/-- `DisplayFormat::format` from `src/modbus/display.rs` lines 60-131.
`raw.get(0).map(..).unwrap_or("-")` becomes `(raw[0]?).map .. |>.getD "-"`;
indexing `raw[i]` under a length guard becomes `raw.getD i 0`, which agrees
with the source because the guard makes the index in bounds.
`f32show bits` stands for `f32::from_bits(bits).to_string()` and
`f64show bits` for `f64::from_bits(bits).to_string()`. -/
def DisplayFormat.format (f32show f64show : Nat → String) :
    DisplayFormat → List Nat → String
  | .Signed, raw => ((raw[0]?).map (fun v => toString (toI16 v))).getD "-"
  | .Unsigned, raw => ((raw[0]?).map (fun v => toString v)).getD "-"
  | .Hex, raw => ((raw[0]?).map (fun v => "0x" ++ String.mk (hex4 v))).getD "-"
  | .Binary, raw => ((raw[0]?).map (fun v => String.mk (bin16 v))).getD "-"
  | .Long, raw =>
      if 2 ≤ raw.length then
        toString (toI32 ((raw.getD 0 0) <<< 16 ||| raw.getD 1 0))
      else "-"
  | .LongInverse, raw =>
      if 2 ≤ raw.length then
        toString (toI32 ((raw.getD 1 0) <<< 16 ||| raw.getD 0 0))
      else "-"
  | .Float, raw =>
      if 2 ≤ raw.length then
        f32show ((raw.getD 0 0) <<< 16 ||| raw.getD 1 0)
      else "-"
  | .FloatInverse, raw =>
      if 2 ≤ raw.length then
        f32show ((raw.getD 1 0) <<< 16 ||| raw.getD 0 0)
      else "-"
  | .Double, raw =>
      if 4 ≤ raw.length then
        f64show ((raw.getD 0 0) <<< 48 ||| (raw.getD 1 0) <<< 32 |||
          (raw.getD 2 0) <<< 16 ||| raw.getD 3 0)
      else "-"
  | .DoubleInverse, raw =>
      if 4 ≤ raw.length then
        f64show ((raw.getD 3 0) <<< 48 ||| (raw.getD 2 0) <<< 32 |||
          (raw.getD 1 0) <<< 16 ||| raw.getD 0 0)
      else "-"

/-- `ModbusTool::format_value` from `src/modbus/app.rs` lines 493-557.
Unlike `DisplayFormat::format`, the four single-word branches use
`raw.get(0).copied().unwrap_or(0)` — a missing word is replaced by the
value 0 rather than yielding the sentinel. The `Double | DoubleInverse`
branch of the source is one match arm testing `fmt == DisplayFormat::Double`
inside. -/
def ModbusTool.format_value (f32show f64show : Nat → String)
    (raw : List Nat) (fmt : DisplayFormat) : String :=
  match fmt with
  | .Signed => toString (toI16 (raw.getD 0 0))
  | .Unsigned => toString (raw.getD 0 0)
  | .Hex => "0x" ++ String.mk (hex4 (raw.getD 0 0))
  | .Binary => String.mk (bin16 (raw.getD 0 0))
  | .Long =>
      if 2 ≤ raw.length then
        toString (toI32 ((raw.getD 0 0) <<< 16 ||| raw.getD 1 0))
      else "-"
  | .LongInverse =>
      if 2 ≤ raw.length then
        toString (toI32 ((raw.getD 1 0) <<< 16 ||| raw.getD 0 0))
      else "-"
  | .Float =>
      if 2 ≤ raw.length then
        f32show ((raw.getD 0 0) <<< 16 ||| raw.getD 1 0)
      else "-"
  | .FloatInverse =>
      if 2 ≤ raw.length then
        f32show ((raw.getD 1 0) <<< 16 ||| raw.getD 0 0)
      else "-"
  | .Double | .DoubleInverse =>
      if 4 ≤ raw.length then
        f64show
          (if fmt = DisplayFormat.Double then
            (raw.getD 0 0) <<< 48 ||| (raw.getD 1 0) <<< 32 |||
              (raw.getD 2 0) <<< 16 ||| raw.getD 3 0
          else
            (raw.getD 3 0) <<< 48 ||| (raw.getD 2 0) <<< 32 |||
              (raw.getD 1 0) <<< 16 ||| raw.getD 0 0)
      else "-"

/-- `ModbusFunction` from `src/modbus/app.rs` lines 14-20. -/
inductive ModbusFunction where
  | ReadCoils
  | ReadDiscrete
  | ReadHolding
  | ReadInput
deriving DecidableEq

/-- Widening of a response boolean to a 16-bit word, the `b as u16` in
`src/modbus/app.rs` lines 471 and 476. -/
def bool_to_u16 (b : Bool) : Nat := if b then 1 else 0

/-- `ModbusTool::modbus_read_by_function` from `src/modbus/app.rs` lines
455-491, restricted to its pure response-mapping part. The endpoint parse,
connect and the awaited tokio-modbus call are I/O; the response the library
delivers is passed in as `bitResponse` (for the two boolean-valued function
codes) or `wordResponse` (for the two register-valued ones). The
`.map(|r| r as u16)` on register responses is the identity on `u16`. -/
def ModbusTool.modbus_read_by_function (function : ModbusFunction)
    (bitResponse : List Bool) (wordResponse : List Nat) : List Nat :=
  match function with
  | .ReadCoils => bitResponse.map (fun b => bool_to_u16 b)
  | .ReadDiscrete => bitResponse.map (fun b => bool_to_u16 b)
  | .ReadHolding => wordResponse
  | .ReadInput => wordResponse

/-- The text content of the register grid built by `ModbusTool::ui_table`,
`src/modbus/app.rs` lines 341-370: `header` is the first grid row (one
address label per column, `self.address + i` in `u16` arithmetic), and
`rows` the data rows. -/
structure ModbusTable where
  header : List Nat
  rows : List (List String)
deriving DecidableEq

/-- `ModbusTool::ui_table` from `src/modbus/app.rs` lines 341-370, with the
egui rendering stripped to the produced labels. The header labels are
`address + i` for `i` in `0..quantity` (`u16` wrapping addition); the cell
at data row `row`, column `col` is
`format_value(&[self.data.get(row * quantity + col).copied().unwrap_or(0)],
display_format)` — always a one-word slice, whatever the format. -/
def ModbusTool.ui_table (f32show f64show : Nat → String)
    (address quantity view_rows : Nat) (data : List Nat)
    (display_format : DisplayFormat) : ModbusTable :=
  { header := (List.range quantity).map (fun i => (address + i) % 65536),
    rows := (List.range view_rows).map (fun row =>
      (List.range quantity).map (fun col =>
        ModbusTool.format_value f32show f64show
          [data.getD (row * quantity + col) 0] display_format)) }

/-- Outcome of one call to `modbus_read_by_function` inside the auto-poll
loop of `src/modbus/app.rs` lines 437-452: a successful read with its data,
or any transport failure. -/
inductive PollCycle where
  | ok (data : List Nat)
  | err
deriving DecidableEq

/-- Whether a poll cycle outcome is a successful read. -/
def PollCycle.isOk : PollCycle → Bool
  | .ok _ => true
  | .err => false

/-- The body of the task spawned by `ModbusTool::start_auto_poll`,
`src/modbus/app.rs` lines 437-452, run over a finite trace of cycle
outcomes. `chanOk` tells whether `tx.send` succeeds, i.e. whether the
matching receiver is still held by the foreground (mpsc semantics: a send
fails exactly when the receiver has been dropped). Result components: the
blocks delivered through the channel, the log entries pushed by the loop
body (the source loop contains no logging statement at all — the `Err(_)`
arm is empty), and whether the loop exited via `break`. An exhausted trace
leaves the loop still running (`false`); the 1-second sleep between cycles
is the passage from one trace element to the next. -/
def ModbusTool.auto_poll_run (chanOk : Bool) :
    List PollCycle → List (List Nat) × List String × Bool
  | [] => ([], [], false)
  | .ok data :: rest =>
      if chanOk then
        let r := ModbusTool.auto_poll_run chanOk rest
        (data :: r.1, r.2.1, r.2.2)
      else ([], [], true)
  | .err :: rest => ModbusTool.auto_poll_run chanOk rest

/-- The channel-ownership state of `ModbusTool` relevant to
`start_read_once` and `start_auto_poll` (`src/modbus/app.rs` lines 386-410
and 423-453): `rx` is the identity of the `Receiver` currently stored in
`self.rx` (assigning `self.rx` drops the previously held receiver), and
`nextChan` a supply of fresh channel identities for `channel()`. -/
structure ModbusToolSt where
  rx : Option Nat
  nextChan : Nat
deriving DecidableEq

/-- `ModbusTool::start_auto_poll`, `src/modbus/app.rs` lines 423-453,
restricted to channel ownership: `let (tx, rx) = channel();
self.rx = Some(rx);` and the spawned loop captures `tx`. Returns the new
tool state and the identity of the channel whose `tx` the spawned loop
holds. -/
def ModbusToolSt.start_auto_poll (s : ModbusToolSt) : ModbusToolSt × Nat :=
  (⟨some s.nextChan, s.nextChan + 1⟩, s.nextChan)

/-- `ModbusTool::start_read_once`, `src/modbus/app.rs` lines 386-410,
restricted to channel ownership: it likewise executes
`let (tx, rx) = channel(); self.rx = Some(rx);`, replacing (and hence
dropping) whatever receiver was held before, and hands `tx` to the spawned
one-shot task. -/
def ModbusToolSt.start_read_once (s : ModbusToolSt) : ModbusToolSt × Nat :=
  (⟨some s.nextChan, s.nextChan + 1⟩, s.nextChan)

/-- mpsc semantics: a send on the `Sender` of channel `txId` succeeds
exactly when the receiver of that same channel is still held. -/
def ModbusToolSt.send_ok (s : ModbusToolSt) (txId : Nat) : Bool :=
  s.rx = some txId

/-- Outcome of one `port.read(&mut buf)` call in the serial read thread,
`src/serial/app.rs` lines 329-341. `ok bytes idle` is `Ok(n)` delivering
`bytes` (possibly none); `timedOut idle` is `Err` of kind `TimedOut`,
mapped to `n = 0`; `fatal` is any other read error, or a poisoned port
lock, both of which `break`. The `idle` flag records whether
`last_recv.elapsed() >= frame_timeout` (the 30 ms threshold) holds at that
iteration, abstracting real time into the trace. -/
inductive ReadResult where
  | ok (bytes : List Nat) (idle : Bool)
  | timedOut (idle : Bool)
  | fatal
deriving DecidableEq

/-- The frames sent on `tx` by the thread body of
`SerialTool::start_read_thread`, `src/serial/app.rs` lines 318-363, run
from accumulation buffer `frame` over a finite trace of read outcomes. An
exhausted trace is the `running` flag being observed `false` at the top of
the loop. Both loop exits — cancellation and the `break` on a fatal read —
fall through to the residual flush after the loop
(`if !frame.is_empty() { let _ = tx.send(frame); }`). -/
def SerialTool.read_thread_emits :
    List Nat → List ReadResult → List (List Nat)
  | frame, [] => if frame = [] then [] else [frame]
  | frame, ReadResult.fatal :: _ => if frame = [] then [] else [frame]
  | frame, ReadResult.ok bytes idle :: rest =>
      if 0 < bytes.length then
        SerialTool.read_thread_emits (frame ++ bytes) rest
      else if frame ≠ [] ∧ idle = true then
        frame :: SerialTool.read_thread_emits [] rest
      else SerialTool.read_thread_emits frame rest
  | frame, ReadResult.timedOut idle :: rest =>
      if frame ≠ [] ∧ idle = true then
        frame :: SerialTool.read_thread_emits [] rest
      else SerialTool.read_thread_emits frame rest

/-- `char::is_ascii_hexdigit` as used by `parse_hex_string`,
`src/serial/utils.rs` line 4. -/
def is_ascii_hexdigit (c : Char) : Bool :=
  ('0' ≤ c && c ≤ '9') || ('a' ≤ c && c ≤ 'f') || ('A' ≤ c && c ≤ 'F')

/-- The value of one hexadecimal digit character under
`u8::from_str_radix(_, 16)`, which accepts both letter cases. -/
def hex_digit_value (c : Char) : Option Nat :=
  if '0' ≤ c && c ≤ '9' then some (c.toNat - 48)
  else if 'a' ≤ c && c ≤ 'f' then some (c.toNat - 87)
  else if 'A' ≤ c && c ≤ 'F' then some (c.toNat - 55)
  else none

/-- The parsing loop of `parse_hex_string`, `src/serial/utils.rs` lines
11-16: consume the cleaned character sequence two digits at a time,
`u8::from_str_radix(&cleaned[i..i+2], 16)` becoming
`16 * high + low`. A failing digit yields the `"Invalid HEX"` error as in
the source; the odd-length leftover case cannot be reached because the
caller has already checked evenness. -/
def parse_hex_pairs : List Char → Except String (List Nat)
  | [] => Except.ok []
  | c1 :: c2 :: rest =>
      match hex_digit_value c1, hex_digit_value c2 with
      | some h, some l =>
          match parse_hex_pairs rest with
          | Except.ok bs => Except.ok ((16 * h + l) :: bs)
          | Except.error e => Except.error e
      | _, _ => Except.error "Invalid HEX"
  | _ :: [] => Except.error "Invalid HEX"

/-- `parse_hex_string` from `src/serial/utils.rs` lines 1-19: keep only
ASCII hex digits, reject an odd count, then parse pairs of digits as
bytes. Since every retained character is ASCII, the byte length of the
cleaned Rust string equals its character count. -/
def parse_hex_string (input : String) : Except String (List Nat) :=
  let cleaned := input.toList.filter is_ascii_hexdigit
  if cleaned.length % 2 ≠ 0 then Except.error "HEX length must be even"
  else parse_hex_pairs cleaned

/-- The two upper-case hex digits of one byte: image of
`format!("{:02X}", b)` on the `u8` domain (`b < 256`), where the width 2 is
always exact. -/
def byte_hex_chars (b : Nat) : List Char :=
  [hexCharUpper (b / 16), hexCharUpper (b % 16)]

/-- `[T]::join(" ")` at character level, as used by `bytes_to_hex_string`. -/
def join_space : List (List Char) → List Char
  | [] => []
  | [x] => x
  | x :: xs => x ++ ' ' :: join_space xs

/-- `bytes_to_hex_string` from `src/serial/utils.rs` lines 21-27: each byte
rendered as two upper-case hex digits, joined with single spaces. -/
def bytes_to_hex_string (bytes : List Nat) : String :=
  String.mk (join_space (bytes.map byte_hex_chars))

/-- The two 16-bit words of a signed 32-bit integer, most significant
first: the words of the `u32` twos-complement bit pattern of the integer,
split at bit 16. Test fixture for the round-trip property of the codec. -/
def encode_i32_words (v : Int) : List Nat :=
  [((v % 4294967296).toNat) / 65536, ((v % 4294967296).toNat) % 65536]

/-- Initial channel-ownership state of a fresh `ModbusTool`
(`ModbusTool::new`, `src/modbus/app.rs` line 112: `rx: None`). -/
def modbusToolInit : ModbusToolSt := ⟨none, 0⟩

section Helpers

/-- Lists agreeing on their first `k` elements have equal optional lookups
below `k`. -/
theorem getElem?_eq_of_take_eq {k i : Nat} {xs ys : List Nat}
    (h : xs.take k = ys.take k) (hi : i < k) : xs[i]? = ys[i]? := by
  rw [← List.getElem?_take_of_lt (l := xs) hi,
    ← List.getElem?_take_of_lt (l := ys) hi, h]

/-- Lists agreeing on their first `k` elements have equal defaulted lookups
below `k`. -/
theorem getD_eq_of_take_eq {k i : Nat} {xs ys : List Nat}
    (h : xs.take k = ys.take k) (hi : i < k) : xs.getD i 0 = ys.getD i 0 := by
  rw [List.getD_eq_getElem?_getD, List.getD_eq_getElem?_getD,
    getElem?_eq_of_take_eq h hi]

end Helpers

/-- C1 counterexample: decoding the empty word sequence (fewer than the one
word Signed requires) with `ModbusTool::format_value` returns `"0"` — the
missing word is substituted by 0 — not the sentinel `"-"` the claim states
for every decoder it cites. -/
theorem C1_counterexample :
    ModbusTool.format_value (fun b => toString b) (fun b => toString b)
      [] DisplayFormat.Signed = "0" ∧
    ("0" : String) ≠ "-" := by
  exact ⟨rfl, by decide⟩

/-- C1 amended: with fewer words than the format requires,
`DisplayFormat::format` returns the sentinel `"-"` for every format, and
`ModbusTool::format_value` returns the sentinel for the multi-word formats
(required word count at least 2); the single-word branches of
`format_value` instead substitute 0 for the missing word. -/
theorem C1_amended (f32show f64show : Nat → String) (fmt : DisplayFormat)
    (raw : List Nat) (h : raw.length < fmt.register_count) :
    DisplayFormat.format f32show f64show fmt raw = "-" ∧
    (2 ≤ fmt.register_count →
      ModbusTool.format_value f32show f64show raw fmt = "-") := by
  cases fmt <;>
    first
    | (have hr : raw = [] :=
        List.length_eq_zero.mp (Nat.lt_one_iff.mp h)
       subst hr
       exact ⟨rfl, fun h2 => absurd h2 (by decide)⟩)
    | (simp only [DisplayFormat.register_count] at h
       refine ⟨?_, fun _ => ?_⟩ <;>
        · simp only [DisplayFormat.format, ModbusTool.format_value]
          rw [if_neg (by omega)])

/-- Witness for the amended C1 at the concrete input `[7]` with format
`Long` (1 word where 2 are required). -/
theorem C1_amended_witness :
    DisplayFormat.format (fun b => toString b) (fun b => toString b)
      DisplayFormat.Long [7] = "-" ∧
    (2 ≤ DisplayFormat.Long.register_count →
      ModbusTool.format_value (fun b => toString b) (fun b => toString b)
        [7] DisplayFormat.Long = "-") :=
  C1_amended (fun b => toString b) (fun b => toString b)
    DisplayFormat.Long [7] (by decide)

/-- C6: splitting the signed 32-bit integer -70000 into two 16-bit words,
most significant first, gives `[0xFFFE, 0xEE90]`; decoding those words with
`Long` yields `"-70000"`, and decoding the reversed words with
`LongInverse` also yields `"-70000"`. -/
theorem C6_long_roundtrip :
    encode_i32_words (-70000) = [65534, 61072] ∧
    DisplayFormat.format (fun b => toString b) (fun b => toString b)
      DisplayFormat.Long (encode_i32_words (-70000)) = "-70000" ∧
    DisplayFormat.format (fun b => toString b) (fun b => toString b)
      DisplayFormat.LongInverse ((encode_i32_words (-70000)).reverse) =
        "-70000" := by
  refine ⟨by decide, rfl, rfl⟩

/-- C3 counterexample: starting from a fresh tool, start the auto-poll
session (its loop holds the sender of channel 0, the tool holds its
receiver), then invoke the one-shot read. The one-shot read replaces
`self.rx` with the receiver of a new channel, dropping the receiver of the
running session. At the next successful read cycle the running loop
delivers nothing and terminates (`tx.send` fails so it breaks), whereas
without the one-shot read the same cycle delivers the block and the loop
keeps running — so the running session is affected. -/
theorem C3_counterexample :
    ModbusTool.auto_poll_run
        ((modbusToolInit.start_auto_poll.1.start_read_once.1).send_ok
          modbusToolInit.start_auto_poll.2)
        [PollCycle.ok [5]] = ([], [], true) ∧
    ModbusTool.auto_poll_run
        (modbusToolInit.start_auto_poll.1.send_ok
          modbusToolInit.start_auto_poll.2)
        [PollCycle.ok [5]] = ([[5]], [], false) ∧
    (([], [], true) : List (List Nat) × List String × Bool) ≠
      ([[5]], [], false) := by
  refine ⟨rfl, rfl, by decide⟩

/-- C3 amended: invoking the one-shot read while a poll session is running
replaces the receiver held in `self.rx` by the one-shot channel receiver,
dropping the running session receiver; every later send of the running
loop therefore fails, so from then on the session delivers no further
RegisterBlock and its loop terminates at its first successful read cycle
(it keeps spinning only while cycles keep failing), and it pushes no log
entry. -/
theorem C3_amended (s : ModbusToolSt) (cycles : List PollCycle) :
    ModbusToolSt.send_ok (s.start_auto_poll.1.start_read_once.1)
      s.start_auto_poll.2 = false ∧
    ModbusTool.auto_poll_run
        (ModbusToolSt.send_ok (s.start_auto_poll.1.start_read_once.1)
          s.start_auto_poll.2)
        cycles = ([], [], cycles.any PollCycle.isOk) := by
  have hf : ModbusToolSt.send_ok (s.start_auto_poll.1.start_read_once.1)
      s.start_auto_poll.2 = false := by
    simp [ModbusToolSt.send_ok, ModbusToolSt.start_auto_poll,
      ModbusToolSt.start_read_once]
  refine ⟨hf, ?_⟩
  rw [hf]
  induction cycles with
  | nil => rfl
  | cons c rest ih =>
    cases c with
    | ok data => simp [ModbusTool.auto_poll_run, PollCycle.isOk]
    | err => simp [ModbusTool.auto_poll_run, PollCycle.isOk, ih]

/-- Witness for the amended C3 at the fresh tool state and a concrete
two-cycle trace (one failure, then one successful read). -/
theorem C3_amended_witness :
    ModbusToolSt.send_ok
      (modbusToolInit.start_auto_poll.1.start_read_once.1)
      modbusToolInit.start_auto_poll.2 = false ∧
    ModbusTool.auto_poll_run
        (ModbusToolSt.send_ok
          (modbusToolInit.start_auto_poll.1.start_read_once.1)
          modbusToolInit.start_auto_poll.2)
        [PollCycle.err, PollCycle.ok [5]] =
      ([], [], [PollCycle.err, PollCycle.ok [5]].any PollCycle.isOk) :=
  C3_amended modbusToolInit [PollCycle.err, PollCycle.ok [5]]

/-- C4 counterexample: one read delivers the byte 1 (accumulated, nothing
emitted), then a non-timeout read error occurs. The loop breaks, but the
code after the loop flushes the non-empty accumulation buffer, so the
frame `[1]` is still emitted — the claim says no further Frame is emitted
regardless of the buffer being non-empty. -/
theorem C4_counterexample :
    SerialTool.read_thread_emits []
      [ReadResult.ok [1] false, ReadResult.fatal] = [[1]] ∧
    ([[1]] : List (List Nat)) ≠ [] := by
  exact ⟨rfl, by decide⟩

/-- C4 amended: a read error other than a timeout terminates the loop —
read outcomes after it contribute nothing — but it is not silent when the
accumulation buffer is non-empty: the buffer is flushed as one final
Frame by the residual-flush code after the loop; only with an empty buffer
is nothing further emitted. -/
theorem C4_amended (frame : List Nat) (pre rest : List ReadResult) :
    SerialTool.read_thread_emits frame
        (pre ++ ReadResult.fatal :: rest) =
      SerialTool.read_thread_emits frame (pre ++ [ReadResult.fatal]) ∧
    SerialTool.read_thread_emits frame [ReadResult.fatal] =
      (if frame = [] then [] else [frame]) := by
  refine ⟨?_, rfl⟩
  induction pre generalizing frame with
  | nil => rfl
  | cons e pre ih =>
    cases e with
    | ok bytes idle =>
      simp only [List.cons_append, SerialTool.read_thread_emits]
      split_ifs
      · exact ih _
      · exact congrArg (frame :: ·) (ih [])
      · exact ih _
    | timedOut idle =>
      simp only [List.cons_append, SerialTool.read_thread_emits]
      split_ifs
      · exact congrArg (frame :: ·) (ih [])
      · exact ih _
    | fatal => rfl

/-- Witness for the amended C4: buffer `[2]`, one accumulating read before
the fatal error, one read outcome after it. -/
theorem C4_amended_witness :
    SerialTool.read_thread_emits [2]
        ([ReadResult.ok [9] false] ++
          ReadResult.fatal :: [ReadResult.ok [3] true]) =
      SerialTool.read_thread_emits [2]
        ([ReadResult.ok [9] false] ++ [ReadResult.fatal]) ∧
    SerialTool.read_thread_emits [2] [ReadResult.fatal] =
      (if ([2] : List Nat) = [] then [] else [[2]]) :=
  C4_amended [2] [ReadResult.ok [9] false] [ReadResult.ok [3] true]

/-- C5 counterexample: after one failed poll cycle (channel intact) the
loop has pushed no log entry at all — the `Err(_)` arm of the loop body is
empty — contradicting the claim that the loop logs the failure; it does
keep running (third component `false`) and has delivered nothing. -/
theorem C5_counterexample :
    ModbusTool.auto_poll_run true [PollCycle.err] = ([], [], false) ∧
    (ModbusTool.auto_poll_run true [PollCycle.err]).2.1 =
      ([] : List String) := by
  exact ⟨rfl, rfl⟩

/-- C5 amended: a transport failure during a poll cycle never terminates
the poll loop; the failure is silently swallowed — no log entry, no
delivery, no state change — and the loop sleeps and proceeds to the next
cycle, so any number of consecutive failed cycles leaves the session
running and the subsequent behaviour identical to a trace without those
failures. -/
theorem C5_amended (chanOk : Bool) (n : Nat) (rest : List PollCycle) :
    ModbusTool.auto_poll_run chanOk
        (List.replicate n PollCycle.err ++ rest) =
      ModbusTool.auto_poll_run chanOk rest ∧
    ModbusTool.auto_poll_run chanOk (List.replicate n PollCycle.err) =
      ([], [], false) := by
  constructor
  · induction n with
    | zero => rfl
    | succ n ih =>
      simpa [List.replicate_succ, ModbusTool.auto_poll_run] using ih
  · induction n with
    | zero => rfl
    | succ n ih =>
      simpa [List.replicate_succ, ModbusTool.auto_poll_run] using ih

/-- Witness for the amended C5: three consecutive failures followed by a
successful cycle, channel intact. -/
theorem C5_amended_witness :
    ModbusTool.auto_poll_run true
        (List.replicate 3 PollCycle.err ++ [PollCycle.ok [1]]) =
      ModbusTool.auto_poll_run true [PollCycle.ok [1]] ∧
    ModbusTool.auto_poll_run true (List.replicate 3 PollCycle.err) =
      ([], [], false) :=
  C5_amended true 3 [PollCycle.ok [1]]

/-- C7: for ReadCoils and ReadDiscreteInputs each response boolean is
widened to the 16-bit word 0 or 1, placed in response order (same length,
position `i` holds the widening of boolean `i`); for ReadHoldingRegisters
and ReadInputRegisters the response words form the RegisterBlock unmodified
and in order. -/
theorem C7_response_mapping (bits : List Bool) (words : List Nat) (i : Nat)
    (hi : i < bits.length) :
    (ModbusTool.modbus_read_by_function ModbusFunction.ReadCoils bits
        words).length = bits.length ∧
    (ModbusTool.modbus_read_by_function ModbusFunction.ReadDiscrete bits
        words).length = bits.length ∧
    (ModbusTool.modbus_read_by_function ModbusFunction.ReadCoils bits
        words).getD i 0 = (if bits.getD i false then 1 else 0) ∧
    (ModbusTool.modbus_read_by_function ModbusFunction.ReadDiscrete bits
        words).getD i 0 = (if bits.getD i false then 1 else 0) ∧
    ModbusTool.modbus_read_by_function ModbusFunction.ReadHolding bits
        words = words ∧
    ModbusTool.modbus_read_by_function ModbusFunction.ReadInput bits
        words = words := by
  refine ⟨by simp [ModbusTool.modbus_read_by_function],
    by simp [ModbusTool.modbus_read_by_function], ?_, ?_, rfl, rfl⟩ <;>
  · rw [List.getD_eq_getElem _ _
      (by simpa [ModbusTool.modbus_read_by_function] using hi),
      List.getD_eq_getElem _ _ hi]
    simp [ModbusTool.modbus_read_by_function, bool_to_u16]

/-- Witness for C7 at the response `[true, false]` with register response
`[3, 4]`, index 0. -/
theorem C7_response_mapping_witness :
    (ModbusTool.modbus_read_by_function ModbusFunction.ReadCoils
        [true, false] [3, 4]).length = [true, false].length ∧
    (ModbusTool.modbus_read_by_function ModbusFunction.ReadDiscrete
        [true, false] [3, 4]).length = [true, false].length ∧
    (ModbusTool.modbus_read_by_function ModbusFunction.ReadCoils
        [true, false] [3, 4]).getD 0 0 =
      (if [true, false].getD 0 false then 1 else 0) ∧
    (ModbusTool.modbus_read_by_function ModbusFunction.ReadDiscrete
        [true, false] [3, 4]).getD 0 0 =
      (if [true, false].getD 0 false then 1 else 0) ∧
    ModbusTool.modbus_read_by_function ModbusFunction.ReadHolding
        [true, false] [3, 4] = [3, 4] ∧
    ModbusTool.modbus_read_by_function ModbusFunction.ReadInput
        [true, false] [3, 4] = [3, 4] :=
  C7_response_mapping [true, false] [3, 4] 0 (by decide)

/-- C8: both decoders consume only the first `register_count` words — for
any two sequences at least that long agreeing on their first
`register_count` words, `DisplayFormat::format` and
`ModbusTool::format_value` each produce equal strings, for every rendering
of the float bit patterns. -/
theorem C8_first_k_words (f32show f64show : Nat → String)
    (fmt : DisplayFormat) (ws1 ws2 : List Nat)
    (h1 : fmt.register_count ≤ ws1.length)
    (h2 : fmt.register_count ≤ ws2.length)
    (heq : ws1.take fmt.register_count = ws2.take fmt.register_count) :
    DisplayFormat.format f32show f64show fmt ws1 =
      DisplayFormat.format f32show f64show fmt ws2 ∧
    ModbusTool.format_value f32show f64show ws1 fmt =
      ModbusTool.format_value f32show f64show ws2 fmt := by
  cases fmt
  case Signed | Unsigned | Hex | Binary =>
    have e0 : ws1[0]? = ws2[0]? := getElem?_eq_of_take_eq heq (by decide)
    have d0 : ws1.getD 0 0 = ws2.getD 0 0 :=
      getD_eq_of_take_eq heq (by decide)
    exact ⟨by simp only [DisplayFormat.format, e0],
      by simp only [ModbusTool.format_value, d0]⟩
  case Long | LongInverse | Float | FloatInverse =>
    have e0 : ws1[0]? = ws2[0]? := getElem?_eq_of_take_eq heq (by decide)
    have e1 : ws1[1]? = ws2[1]? := getElem?_eq_of_take_eq heq (by decide)
    have l1 : 2 ≤ ws1.length := h1
    have l2 : 2 ≤ ws2.length := h2
    constructor <;>
      simp [DisplayFormat.format, ModbusTool.format_value, e0, e1, l1, l2]
  case Double | DoubleInverse =>
    have e0 : ws1[0]? = ws2[0]? := getElem?_eq_of_take_eq heq (by decide)
    have e1 : ws1[1]? = ws2[1]? := getElem?_eq_of_take_eq heq (by decide)
    have e2 : ws1[2]? = ws2[2]? := getElem?_eq_of_take_eq heq (by decide)
    have e3 : ws1[3]? = ws2[3]? := getElem?_eq_of_take_eq heq (by decide)
    have l1 : 4 ≤ ws1.length := h1
    have l2 : 4 ≤ ws2.length := h2
    constructor <;>
      simp [DisplayFormat.format, ModbusTool.format_value, e0, e1, e2, e3,
        l1, l2]

/-- Witness for C8 with format `Long` on `[1, 2, 3]` and `[1, 2, 4]`: the
sequences agree on their first two words. -/
theorem C8_first_k_words_witness :
    DisplayFormat.format (fun b => toString b) (fun b => toString b)
        DisplayFormat.Long [1, 2, 3] =
      DisplayFormat.format (fun b => toString b) (fun b => toString b)
        DisplayFormat.Long [1, 2, 4] ∧
    ModbusTool.format_value (fun b => toString b) (fun b => toString b)
        [1, 2, 3] DisplayFormat.Long =
      ModbusTool.format_value (fun b => toString b) (fun b => toString b)
        [1, 2, 4] DisplayFormat.Long :=
  C8_first_k_words (fun b => toString b) (fun b => toString b)
    DisplayFormat.Long [1, 2, 3] [1, 2, 4] (by decide) (by decide)
    (by decide)

/-- C9: the two codec implementations agree whenever the word sequence is
at least as long as the format requires (they differ only below that
length, on the single-word formats): `DisplayFormat::format` of
`src/modbus/display.rs` equals `ModbusTool::format_value` of
`src/modbus/app.rs`, for every rendering of the float bit patterns. -/
theorem C9_codec_agreement (f32show f64show : Nat → String)
    (fmt : DisplayFormat) (ws : List Nat)
    (h : fmt.register_count ≤ ws.length) :
    DisplayFormat.format f32show f64show fmt ws =
      ModbusTool.format_value f32show f64show ws fmt := by
  cases fmt
  case Signed | Unsigned | Hex | Binary =>
    cases ws with
    | nil => exact absurd h (by decide)
    | cons v t => simp [DisplayFormat.format, ModbusTool.format_value]
  case Long | LongInverse | Float | FloatInverse => rfl
  case Double | DoubleInverse =>
    simp [DisplayFormat.format, ModbusTool.format_value]

/-- Witness for C9 with format `Signed` on the one-word sequence `[5]`. -/
theorem C9_codec_agreement_witness :
    DisplayFormat.format (fun b => toString b) (fun b => toString b)
      DisplayFormat.Signed [5] =
    ModbusTool.format_value (fun b => toString b) (fun b => toString b)
      [5] DisplayFormat.Signed :=
  C9_codec_agreement (fun b => toString b) (fun b => toString b)
    DisplayFormat.Signed [5] (by decide)

/-- Defaulted lookup into a mapped range: element `i` of
`(List.range n).map f` is `f i` for `i < n`. -/
theorem getD_range_map {α : Type} (n i : Nat) (f : Nat → α) (d : α)
    (hi : i < n) : ((List.range n).map f).getD i d = f i := by
  rw [List.getD_eq_getElem _ _ (by simpa using hi)]
  simp

/-- C2 counterexample: with start address 0, quantity 2, one view row and
the two-word block `[1, 2]` under format `Long` (required word count 2),
the claim predicts one group decoding to `"65538"` displayed at address 0.
The table instead renders the two cells `"-"` and `"-"` — each cell is
formatted from a single word, so a two-word format never decodes — and
displays the two column addresses 0 and 1, not the group address list
`[0]`. -/
theorem C2_counterexample :
    (ModbusTool.ui_table (fun b => toString b) (fun b => toString b)
        0 2 1 [1, 2] DisplayFormat.Long).rows = [["-", "-"]] ∧
    (ModbusTool.ui_table (fun b => toString b) (fun b => toString b)
        0 2 1 [1, 2] DisplayFormat.Long).header = [0, 1] ∧
    DisplayFormat.format (fun b => toString b) (fun b => toString b)
      DisplayFormat.Long [1, 2] = "65538" ∧
    (["-", "-"] : List String) ≠ ["65538"] ∧
    ([0, 1] : List Nat) ≠ [0] := by
  refine ⟨rfl, rfl, rfl, by decide, by decide⟩

/-- C2 amended: the table built by `ui_table` does not partition the block
into groups of `register_count` words. It has `view_rows` rows of
`quantity` cells; the cell at row `row`, column `col` displays
`format_value` of the single word at flat index `row * quantity + col` of
the block (0 when out of range), whatever the selected format (so formats
requiring 2 or 4 words render `"-"` in every cell), and the displayed
addresses are the column headers: start address plus column index (in
16-bit arithmetic), independent of the format. -/
theorem C2_amended (f32show f64show : Nat → String)
    (address quantity view_rows : Nat) (data : List Nat)
    (fmt : DisplayFormat) (row col : Nat)
    (hr : row < view_rows) (hc : col < quantity) :
    (ModbusTool.ui_table f32show f64show address quantity view_rows data
        fmt).rows.length = view_rows ∧
    ((ModbusTool.ui_table f32show f64show address quantity view_rows data
        fmt).rows.getD row []).getD col "" =
      ModbusTool.format_value f32show f64show
        [data.getD (row * quantity + col) 0] fmt ∧
    (ModbusTool.ui_table f32show f64show address quantity view_rows data
        fmt).header.getD col 0 = (address + col) % 65536 := by
  refine ⟨by simp [ModbusTool.ui_table], ?_, ?_⟩
  · show (((List.range view_rows).map _).getD row []).getD col "" = _
    rw [getD_range_map _ _ _ _ hr, getD_range_map _ _ _ _ hc]
  · show ((List.range quantity).map _).getD col 0 = _
    rw [getD_range_map _ _ _ _ hc]

/-- Witness for the amended C2: address 7, quantity 2, two view rows,
block `[1, 2, 3]`, format `Signed`, cell at row 1, column 0 (flat index
2). -/
theorem C2_amended_witness :
    (ModbusTool.ui_table (fun b => toString b) (fun b => toString b)
        7 2 2 [1, 2, 3] DisplayFormat.Signed).rows.length = 2 ∧
    ((ModbusTool.ui_table (fun b => toString b) (fun b => toString b)
        7 2 2 [1, 2, 3] DisplayFormat.Signed).rows.getD 1 []).getD 0 "" =
      ModbusTool.format_value (fun b => toString b) (fun b => toString b)
        [[1, 2, 3].getD (1 * 2 + 0) 0] DisplayFormat.Signed ∧
    (ModbusTool.ui_table (fun b => toString b) (fun b => toString b)
        7 2 2 [1, 2, 3] DisplayFormat.Signed).header.getD 0 0 =
      (7 + 0) % 65536 :=
  C2_amended (fun b => toString b) (fun b => toString b) 7 2 2 [1, 2, 3]
    DisplayFormat.Signed 1 0 (by decide) (by decide)

/-- Every upper-case hex digit character passes the hex-digit filter. -/
theorem hexCharUpper_hexdigit :
    ∀ d < 16, is_ascii_hexdigit (hexCharUpper d) = true := by decide

/-- `from_str_radix` recovers the value of an upper-case hex digit. -/
theorem hex_digit_value_hexCharUpper :
    ∀ d < 16, hex_digit_value (hexCharUpper d) = some d := by decide

/-- The hex rendering of a byte survives the hex-digit filter unchanged. -/
theorem filter_hex_byte (b : Nat) (hb : b < 256) :
    (byte_hex_chars b).filter is_ascii_hexdigit = byte_hex_chars b := by
  have h1 : b / 16 < 16 := by omega
  have h2 : b % 16 < 16 := Nat.mod_lt _ (by decide)
  simp [byte_hex_chars, List.filter,
    hexCharUpper_hexdigit _ h1, hexCharUpper_hexdigit _ h2]

/-- The separating space is dropped by the hex-digit filter. -/
theorem filter_space_cons (l : List Char) :
    (' ' :: l).filter is_ascii_hexdigit = l.filter is_ascii_hexdigit := rfl

/-- Filtering the space-joined hex rendering for hex digits leaves exactly
the concatenated digit pairs. -/
theorem filter_hex_join (bs : List Nat) (hb : ∀ b ∈ bs, b < 256) :
    (join_space (bs.map byte_hex_chars)).filter is_ascii_hexdigit =
      (bs.map byte_hex_chars).flatten := by
  induction bs with
  | nil => rfl
  | cons b bs ih =>
    have hb0 : b < 256 := hb b (by simp)
    have hbs : ∀ x ∈ bs, x < 256 := fun x hx => hb x (by simp [hx])
    cases bs with
    | nil =>
      simp only [List.map_cons, List.map_nil]
      rw [show join_space [byte_hex_chars b] = byte_hex_chars b from rfl,
        filter_hex_byte b hb0]
      simp
    | cons b2 bs2 =>
      have ih2 := ih hbs
      simp only [List.map_cons] at ih2 ⊢
      rw [show join_space (byte_hex_chars b :: byte_hex_chars b2 ::
            List.map byte_hex_chars bs2) =
          byte_hex_chars b ++ ' ' :: join_space (byte_hex_chars b2 ::
            List.map byte_hex_chars bs2) from rfl]
      rw [List.filter_append, filter_space_cons, filter_hex_byte b hb0, ih2]
      rfl

/-- The concatenated hex digit pairs of a byte list have even length. -/
theorem hex_flatten_length (bs : List Nat) :
    ((bs.map byte_hex_chars).flatten).length = 2 * bs.length := by
  induction bs with
  | nil => rfl
  | cons b bs ih =>
    simp only [List.map_cons, List.flatten_cons, List.length_append,
      List.length_cons, ih, byte_hex_chars]
    simp [List.length_cons]
    omega

/-- Parsing the concatenated hex digit pairs recovers the byte list. -/
theorem parse_hex_pairs_flatten (bs : List Nat) (hb : ∀ b ∈ bs, b < 256) :
    parse_hex_pairs ((bs.map byte_hex_chars).flatten) = Except.ok bs := by
  induction bs with
  | nil => rfl
  | cons b bs ih =>
    have hb0 : b < 256 := hb b (by simp)
    have hbs : ∀ x ∈ bs, x < 256 := fun x hx => hb x (by simp [hx])
    have h1 : hex_digit_value (hexCharUpper (b / 16)) = some (b / 16) :=
      hex_digit_value_hexCharUpper _ (by omega)
    have h2 : hex_digit_value (hexCharUpper (b % 16)) = some (b % 16) :=
      hex_digit_value_hexCharUpper _ (Nat.mod_lt _ (by decide))
    have hbval : 16 * (b / 16) + b % 16 = b := by omega
    simp only [List.map_cons, List.flatten_cons, byte_hex_chars,
      List.cons_append, List.append_eq, List.nil_append, parse_hex_pairs,
      h1, h2, ih hbs, hbval]

/-- C10: rendering any byte sequence as space-separated two-digit
upper-case hex with `bytes_to_hex_string` and parsing the result back with
`parse_hex_string` recovers exactly the original bytes. -/
theorem C10_hex_roundtrip (bs : List Nat) (hb : ∀ b ∈ bs, b < 256) :
    parse_hex_string (bytes_to_hex_string bs) = Except.ok bs := by
  have hclean : (bytes_to_hex_string bs).toList.filter is_ascii_hexdigit =
      (bs.map byte_hex_chars).flatten := filter_hex_join bs hb
  simp only [parse_hex_string, hclean]
  rw [if_neg (by rw [hex_flatten_length]; omega)]
  exact parse_hex_pairs_flatten bs hb

/-- Witness for C10 at the byte sequence `[0, 171, 255]` (rendered
`"00 AB FF"`). -/
theorem C10_hex_roundtrip_witness :
    parse_hex_string (bytes_to_hex_string [0, 171, 255]) =
      Except.ok [0, 171, 255] :=
  C10_hex_roundtrip [0, 171, 255] (by decide)
